import Mathlib

/-!
Shallow embedding of the DBT ingestion source
(`ingestion/src/metadata/ingestion/source/database/dbt_source.py`, class
`DBTMixin`) and proofs about its documented behaviour.

Modelling conventions:
- Python dicts keyed by strings become association lists
  `List (String × α)`; `pyGet` models `d.get(k)` / `d[k]` lookup and
  `pyInsert` models `d[k] = v` (replace the value when the key is present,
  append otherwise).  Python guarantees distinct keys; theorems that need
  this take a `Nodup` hypothesis on the key list.
- A manifest / catalog field that the code reads with `node["field"]`
  (raising `KeyError` when absent) or `node.get("field")` (yielding `None`)
  is modelled as an `Option`; `none` means the key is absent.  A JSON-null
  value for a field that the code only ever treats by truthiness is
  modelled as the empty string, which the code handles identically.
- Per-entity `try/except` blocks become `Except String` values: a thrown
  exception is `.error`, and the driver loops skip `.error` items exactly
  where the Python `except` clauses log and continue.
- External collaborators (the metadata catalog client, the `fqn` builder,
  the column type parser) are abstract function fields of an `Env`
  record, matching the spec's "external interfaces" section.
- Generators become functions returning the list of yielded values, in
  yield order.
-/

namespace Dbt

/-- Lookup in an association list, modelling Python `dict` access. -/
def pyGet {α : Type} : List (String × α) → String → Option α
  | [], _ => none
  | (k', v) :: t, k => if k' = k then some v else pyGet t k

/-- Update in an association list, modelling Python `d[k] = v`: replace the
value in place when the key is already present, append a new entry
otherwise. -/
def pyInsert {α : Type} : List (String × α) → String → α → List (String × α)
  | [], k, v => [(k, v)]
  | (k', v') :: t, k, v =>
    if k' = k then (k, v) :: t else (k', v') :: pyInsert t k v

theorem pyGet_eq_none_iff {α : Type} (m : List (String × α)) (k : String) :
    pyGet m k = none ↔ k ∉ m.map Prod.fst := by
  induction m with
  | nil => simp [pyGet]
  | cons p t ih =>
    obtain ⟨k', v⟩ := p
    by_cases h : k' = k
    · simp [pyGet, h]
    · have h' : ¬(k = k') := fun hc => h hc.symm
      simp [pyGet, h, ih, h']

theorem pyGet_mem {α : Type} {m : List (String × α)} {k : String} {v : α}
    (h : pyGet m k = some v) : (k, v) ∈ m := by
  induction m with
  | nil => simp [pyGet] at h
  | cons p t ih =>
    obtain ⟨k', v'⟩ := p
    by_cases hk : k' = k
    · subst hk
      simp [pyGet] at h
      simp [h]
    · simp [pyGet, hk] at h
      simp [ih h]

theorem pyGet_pyInsert_self {α : Type} (m : List (String × α)) (k : String)
    (v : α) : pyGet (pyInsert m k v) k = some v := by
  induction m with
  | nil => simp [pyInsert, pyGet]
  | cons p t ih =>
    obtain ⟨k', v'⟩ := p
    by_cases h : k' = k
    · simp [pyInsert, pyGet, h]
    · simp [pyInsert, pyGet, h, ih]

theorem pyGet_pyInsert_ne {α : Type} (m : List (String × α)) {k k' : String}
    (v : α) (h : k' ≠ k) : pyGet (pyInsert m k v) k' = pyGet m k' := by
  have h' : ¬(k = k') := fun hc => h hc.symm
  induction m with
  | nil => simp [pyInsert, pyGet, h']
  | cons p t ih =>
    obtain ⟨k₀, v₀⟩ := p
    by_cases h0 : k₀ = k
    · subst h0
      simp [pyInsert, pyGet, h']
    · by_cases h1 : k₀ = k'
      · simp [pyInsert, pyGet, h0, h1, h', h]
      · simp [pyInsert, pyGet, h0, h1, ih]

theorem mem_pyInsert {α : Type} {m : List (String × α)} {k : String} {v : α}
    {q : String × α} (h : q ∈ pyInsert m k v) : q = (k, v) ∨ q ∈ m := by
  induction m with
  | nil =>
    simp [pyInsert] at h
    simp [h]
  | cons p t ih =>
    obtain ⟨k₀, v₀⟩ := p
    by_cases h0 : k₀ = k
    · simp [pyInsert, h0] at h
      rcases h with h | h
      · simp [h]
      · exact Or.inr (List.mem_cons_of_mem _ h)
    · simp [pyInsert, h0] at h
      rcases h with h | h
      · exact Or.inr (by simp [h])
      · rcases ih h with h' | h'
        · exact Or.inl h'
        · exact Or.inr (List.mem_cons_of_mem _ h')

theorem keys_pyInsert_of_isSome {α : Type} {m : List (String × α)}
    {k : String} (v : α) (h : (pyGet m k).isSome) :
    (pyInsert m k v).map Prod.fst = m.map Prod.fst := by
  induction m with
  | nil => simp [pyGet] at h
  | cons p t ih =>
    obtain ⟨k₀, v₀⟩ := p
    by_cases h0 : k₀ = k
    · simp [pyInsert, h0]
    · simp [pyGet, h0] at h
      simp [pyInsert, h0, ih h]

theorem keys_pyInsert_of_none {α : Type} {m : List (String × α)}
    {k : String} (v : α) (h : pyGet m k = none) :
    (pyInsert m k v).map Prod.fst = m.map Prod.fst ++ [k] := by
  induction m with
  | nil => simp [pyInsert]
  | cons p t ih =>
    obtain ⟨k₀, v₀⟩ := p
    by_cases h0 : k₀ = k
    · simp [pyGet, h0] at h
    · simp [pyGet, h0] at h
      simp [pyInsert, h0, ih h]

theorem nodup_keys_pyInsert {α : Type} {m : List (String × α)} {k : String}
    (v : α) (h : (m.map Prod.fst).Nodup) :
    ((pyInsert m k v).map Prod.fst).Nodup := by
  by_cases hs : (pyGet m k).isSome
  · rw [keys_pyInsert_of_isSome v hs]
    exact h
  · have hn : pyGet m k = none := by
      cases he : pyGet m k
      · rfl
      · simp [he] at hs
    rw [keys_pyInsert_of_none v hn]
    have hknot : k ∉ m.map Prod.fst := (pyGet_eq_none_iff m k).mp hn
    rw [List.nodup_append]
    refine ⟨h, List.nodup_singleton k, ?_⟩
    intro a ha hb
    simp at hb
    exact hknot (hb ▸ ha)

/-! ## Data model

Record types mirroring the JSON shapes read by `dbt_source.py` (manifest
node, catalog node, and the records the code constructs), plus the `Env`
of external collaborators. -/

/-- The `test_metadata.kwargs` block of a manifest test node. -/
structure TMKwargs where
  values : Option (List String)
deriving DecidableEq

/-- The `test_metadata` block of a manifest test node. -/
structure TestMeta where
  name : Option String
  kwargs : Option TMKwargs
deriving DecidableEq

/-- A manifest column entry (`mnode["columns"][key]`). -/
structure MColumn where
  description : Option String
deriving DecidableEq

/-- A manifest node (an entry of `manifest["nodes"] | manifest["sources"]`).
Field `none` means the JSON key is absent. -/
structure MNode where
  alias_ : Option String
  name : Option String
  resource_type : Option String
  database : Option String
  schema_ : Option String
  raw_sql : Option String
  compiled_sql : Option String
  description : Option String
  depends_on_nodes : Option (List String)
  meta : Option (List (String × String))
  columns : List (String × MColumn)
  column_name : Option String
  test_metadata : Option TestMeta
  root_path : Option String
  original_file_path : Option String
deriving DecidableEq

/-- A catalog column entry (`cnode["columns"][key]`). -/
structure CColumn where
  name : Option String
  type_ : Option String
  index : Option Int
  comment : Option String
deriving DecidableEq

/-- The `metadata` block of a catalog node. -/
structure CMetadata where
  owner : Option String
deriving DecidableEq

/-- A catalog node (an entry of `catalog["nodes"] | catalog["sources"]`). -/
structure CNode where
  columns : Option (List (String × CColumn))
  metadata : Option CMetadata
deriving DecidableEq

/-- A resolved column, as built by `_parse_data_model_columns`. -/
structure Column where
  name : String
  description : Option String
  dataType : String
  dataLength : Nat
  ordinalPosition : Int
deriving DecidableEq

/-- A derived data model, as built by `_parse_data_model`. -/
structure DataModel where
  modelType : String
  description : Option String
  path : String
  rawSql : String
  sql : String
  columns : List Column
  upstream : List String
  owner : Option String
deriving DecidableEq

/-- An entity returned by the external catalog client; only its id is
used by the code under verification. -/
structure Entity where
  id : String
deriving DecidableEq

/-- External collaborators, per spec section 6: the type parser, the
qualified-name builder and the catalog client, plus the configured
service name.  All are abstract pure functions. -/
structure Env where
  serviceName : String
  getColumnType : String → String
  buildModelFqn : String → String → String → String → String
  buildTableFqn : String → Option String → Option String → Option String → Option String
  buildUserFqn : String → Option String
  buildTeamFqn : String → Option String
  getUserRef : String → Option String
  getTeamRef : String → Option String
  getTableByName : String → Option Entity
  getTestDefByName : String → Option Entity
  getTestSuiteByName : String → Option Entity
  buildTestCaseFqn : String → Option String → Option String → Option String → Option String → String → String

/-- Python truthiness of an optional string: `None` and `""` are falsy. -/
def optTruthy : Option String → Bool
  | none => false
  | some s => s ≠ ""

/-- Models `x if x else None` applied to an optional string. -/
def pyTruthyOpt : Option String → Option String
  | none => none
  | some s => if s = "" then none else some s

/-- Models Python f-string interpolation of an optional string
(`None` prints as `"None"`). -/
def pyStrOpt : Option String → String
  | none => "None"
  | some s => s

/-- ASCII lowercasing, modelling Python `.lower()` on the (ASCII) column
names and keys the code lowercases.  Defined over the character list so
that it reduces inside the kernel. -/
def pyLower (s : String) : String := ⟨s.data.map Char.toLower⟩

/-- Models `x if x else "default"` for the database / schema fields. -/
def defaultIfFalsy (s : String) : String :=
  if s = "" then "default" else s

/-- Name selection, line 81 / 93: `mnode["alias"] if "alias" in
mnode.keys() else mnode["name"]`.  `none` means the access raises. -/
def nameOf (m : MNode) : Option String :=
  match m.alias_ with
  | some a => some a
  | none => m.name

/-! ## DataModelResolver -/

/-- The manifest-side description lookup of line 187:
`mnode["columns"].get(key.lower(), {}).get("description")`. -/
def manifestDesc (mcols : List (String × MColumn)) (key : String) :
    Option String :=
  match pyGet mcols (pyLower key) with
  | some mc => mc.description
  | none => none

/-- Description resolution for one column, lines 187-192: manifest
description first, catalog comment only when the former is `None`, and a
final `description if description else None` normalisation. -/
def resolveDescription (mcols : List (String × MColumn)) (key : String)
    (comment : Option String) : Option String :=
  let d0 : Option String := manifestDesc mcols key
  let d1 : Option String :=
    match d0 with
    | none => comment
    | some s => some s
  pyTruthyOpt d1

/-- One iteration of the column loop of `_parse_data_model_columns`
(lines 181-200).  The `name` access happens before the per-column `try`,
so a missing name is an error for the whole node; a missing `type` or
`index` is caught per column and the column is skipped. -/
def parseColumnStep (env : Env) (mcols : List (String × MColumn))
    (acc : List Column) (kcc : String × CColumn) : Except String (List Column) :=
  match kcc.2.name with
  | none => .error "KeyError: name"
  | some cname =>
    match kcc.2.type_, kcc.2.index with
    | some ctype, some idx =>
      .ok (acc ++ [{ name := pyLower cname
                   , description := resolveDescription mcols kcc.1 kcc.2.comment
                   , dataType := env.getColumnType ctype
                   , dataLength := 1
                   , ordinalPosition := idx }])
    | _, _ => .ok acc

/-- `_parse_data_model_columns` (lines 175-202).  `cnode.get("columns")`
returning `None` makes the `for` raise, an error for the whole node. -/
def parse_data_model_columns (env : Env) (m : MNode) (c : CNode) :
    Except String (List Column) :=
  match c.columns with
  | none => .error "TypeError: columns is None"
  | some ccols => ccols.foldlM (parseColumnStep env m.columns) []

/-- One iteration of the dependency loop of `_parse_data_model_upstream`
(lines 150-172): a missing dependency id or missing parent field is
caught and skipped; a falsy built fqn is not appended. -/
def upstreamStep (env : Env) (manifest : List (String × MNode))
    (acc : List String) (node : String) : List String :=
  match pyGet manifest node with
  | none => acc
  | some parent =>
    match parent.database, parent.schema_, parent.name with
    | some db, some sch, some nm =>
      let pf := env.buildTableFqn env.serviceName
        (some (defaultIfFalsy db)) (some (defaultIfFalsy sch)) (some nm)
      if optTruthy pf then acc ++ [pf.getD ""] else acc
    | _, _, _ => acc

/-- `_parse_data_model_upstream` (lines 147-173). -/
def parse_data_model_upstream (env : Env) (manifest : List (String × MNode))
    (m : MNode) : List String :=
  match m.depends_on_nodes with
  | none => []
  | some nodes => nodes.foldl (upstreamStep env manifest) []

/-- Owner resolution (lines 100-122): user lookup first, team as
fallback, none otherwise. -/
def resolveOwner (env : Env) (owner : Option String) : Option String :=
  if optTruthy owner then
    let owner_name := "*" ++ owner.getD "" ++ "*"
    let ufqn := env.buildUserFqn owner_name
    if optTruthy ufqn then env.getUserRef (ufqn.getD "")
    else
      let tfqn := env.buildTeamFqn owner_name
      if optTruthy tfqn then env.getTeamRef (tfqn.getD "")
      else none
  else none

/-- Outcome of processing one manifest entry inside the `try` of
`_parse_data_model`: routed to the test-node map, or a data model keyed
by its built fqn. -/
inductive NodeOutcome where
  | test (key : String) (m : MNode)
  | model (fqn : String) (dm : DataModel)
deriving DecidableEq

/-- Column resolution step of `_parse_data_model`, lines 82-87: parse
columns when the node has a catalog counterpart, else an empty list. -/
def colsOf (env : Env) (m : MNode) (cnode : Option CNode) :
    Except String (List Column) :=
  match cnode with
  | some c => parse_data_model_columns env m c
  | none => .ok []

/-- The body of the per-node `try` of `_parse_data_model` (lines 80-142),
in source statement order: name selection, catalog lookup and column
parsing, the `resource_type == "test"` routing, upstream resolution,
database/schema defaulting, owner resolution (note: `cnode["metadata"]`
raises when the node has no catalog counterpart), model assembly and fqn
construction. -/
def processNode (env : Env) (manifest : List (String × MNode))
    (catalog : List (String × CNode)) (k : String) (m : MNode) :
    Except String NodeOutcome :=
  match nameOf m with
  | none => .error "KeyError: name"
  | some _ =>
    let cnode := pyGet catalog k
    match colsOf env m cnode with
    | .error e => .error e
    | .ok columns =>
      match m.resource_type with
      | none => .error "KeyError: resource_type"
      | some rt =>
        if rt = "test" then .ok (.test k m)
        else
          let upstream := parse_data_model_upstream env manifest m
          match nameOf m with
          | none => .error "KeyError: name"
          | some modelName =>
            match m.database, m.schema_ with
            | some db, some sch =>
              let database := defaultIfFalsy db
              let schemaV := defaultIfFalsy sch
              let raw_sql := m.raw_sql.getD ""
              match cnode with
              | none => .error "TypeError: cnode is None"
              | some c =>
                match c.metadata with
                | none => .error "KeyError: metadata"
                | some md =>
                  let owner := resolveOwner env md.owner
                  match m.root_path, m.original_file_path with
                  | some rp, some ofp =>
                    let dm : DataModel :=
                      { modelType := "DBT"
                      , description := pyTruthyOpt m.description
                      , path := rp ++ "/" ++ ofp
                      , rawSql := raw_sql
                      , sql := m.compiled_sql.getD raw_sql
                      , columns := columns
                      , upstream := upstream
                      , owner := owner }
                    .ok (.model
                      (env.buildModelFqn env.serviceName database schemaV modelName) dm)
                  | _, _ => .error "KeyError: path"
            | _, _ => .error "KeyError: database/schema"

/-- The two instance maps written by `_parse_data_model`. -/
structure ParseState where
  data_models : List (String × DataModel)
  dbt_tests : List (String × MNode)
deriving DecidableEq

/-- One iteration of the node loop of `_parse_data_model`: an exception
is logged and the node skipped (lines 143-145); otherwise the node is
routed to `dbt_tests` (line 90) or stored in `data_models` (line 142). -/
def parseStep (env : Env) (manifest : List (String × MNode))
    (catalog : List (String × CNode)) (st : ParseState) (e : String × MNode) :
    ParseState :=
  match processNode env manifest catalog e.1 e.2 with
  | .error _ => st
  | .ok (.test k m) => { st with dbt_tests := pyInsert st.dbt_tests k m }
  | .ok (.model f dm) => { st with data_models := pyInsert st.data_models f dm }

/-- The node loop of `_parse_data_model` over a list of entries. -/
def parseGo (env : Env) (manifest : List (String × MNode))
    (catalog : List (String × CNode)) (st : ParseState)
    (l : List (String × MNode)) : ParseState :=
  l.foldl (parseStep env manifest catalog) st

/-- `_parse_data_model` (lines 61-145), starting from empty maps and
iterating the merged manifest-entity map. -/
def parse_data_model (env : Env) (manifest : List (String × MNode))
    (catalog : List (String × CNode)) : ParseState :=
  parseGo env manifest catalog ⟨[], []⟩ manifest

/-! ## LineageEmitter -/

/-- A lineage edge as yielded by `create_dbt_lineage` (the
`AddLineageRequest` payload: endpoint ids and entity types). -/
structure LineageEdge where
  fromId : String
  fromType : String
  toId : String
  toType : String
deriving DecidableEq

/-- The inner loop of `create_dbt_lineage` for one data model
(lines 210-230): for each upstream name, look up both endpoints and
yield an edge only when both lookups return an entity. -/
def lineageForModel (env : Env) (nm : String) (dm : DataModel) :
    List LineageEdge :=
  dm.upstream.filterMap (fun up =>
    match env.getTableByName up, env.getTableByName nm with
    | some fe, some te => some ⟨fe.id, "table", te.id, "table"⟩
    | _, _ => none)

/-- `create_dbt_lineage` (lines 204-236). -/
def create_dbt_lineage (env : Env) (dms : List (String × DataModel)) :
    List LineageEdge :=
  dms.flatMap (fun p => lineageForModel env p.1 p.2)

/-! ## TestMappingEngine: suites and definitions -/

/-- A request yielded by `create_dbt_tests_suite_definition`. -/
inductive SuiteDefReq where
  | suite (name desc : String)
  | defn (name desc etype pname : String)
deriving DecidableEq

/-- The catalog lookups made by `create_dbt_tests_suite_definition`,
as functions of the requests yielded so far in this run: the caller may
or may not have persisted earlier yields, so existence checks are
modelled as an oracle over the yield prefix. -/
structure SuiteOracle where
  suiteExists : List SuiteDefReq → String → Bool
  defnExists : List SuiteDefReq → String → Bool

/-- The body of the loop of `create_dbt_tests_suite_definition` for one
test node (lines 249-284).  Returns the requests yielded for this node
and whether an exception escaped (a missing `meta`, `name`,
`description` or `test_metadata.name` key). -/
def suiteDefOne (oracle : SuiteOracle) (yielded : List SuiteDefReq)
    (t : MNode) : List SuiteDefReq × Bool :=
  match t.meta with
  | none => ([], true)
  | some meta =>
    let sname := (pyGet meta "test_suite_name").getD "DBT_TEST_SUITE"
    let sdesc := (pyGet meta "test_suite_desciption").getD ""
    let y1 : List SuiteDefReq :=
      if oracle.suiteExists yielded sname then []
      else [.suite sname sdesc]
    match t.name with
    | none => (y1, true)
    | some tname =>
      if oracle.defnExists (yielded ++ y1) tname then (y1, false)
      else
        let etype := if optTruthy t.column_name then "COLUMN" else "TABLE"
        match t.description with
        | none => (y1, true)
        | some tdesc =>
          match t.test_metadata with
          | none => (y1, true)
          | some tm =>
            match tm.name with
            | none => (y1, true)
            | some pname => (y1 ++ [.defn tname tdesc etype pname], false)

/-- The node loop of `create_dbt_tests_suite_definition`.  The single
`try` wraps the whole loop (lines 242-286), so an exception ends the
generator: already-yielded requests stand, remaining nodes are skipped. -/
def suiteDefGo (oracle : SuiteOracle) (acc : List SuiteDefReq) :
    List (String × MNode) → List SuiteDefReq
  | [] => acc
  | e :: rest =>
    match suiteDefOne oracle acc e.2 with
    | (y, true) => acc ++ y
    | (y, false) => suiteDefGo oracle (acc ++ y) rest

/-- `create_dbt_tests_suite_definition` (lines 238-286) over the
test-node map. -/
def create_dbt_tests_suite_definition (oracle : SuiteOracle)
    (tests : List (String × MNode)) : List SuiteDefReq :=
  suiteDefGo oracle [] tests

/-! ## TestMappingEngine: test cases -/

/-- A request yielded by `create_dbt_test_cases` (the
`CreateTestCaseRequest` payload used by the code). -/
structure TestCaseReq where
  name : String
  description : String
  testDefinitionId : String
  entityLink : String
  testSuiteId : String
  paramName : String
  paramValue : String
deriving DecidableEq

/-- The dependency loop of `generate_entity_link` (lines 419-440): a
dependency id absent from the manifest map makes `model.get(...)` raise,
which aborts the whole link list (it is built before any yield). -/
def entityLinkGo (env : Env) (manifest : List (String × MNode)) (t : MNode) :
    List String → Except String (List String)
  | [] => .ok []
  | node :: rest =>
    match pyGet manifest node with
    | none => .error "AttributeError: model is None"
    | some model =>
      let tfqn := env.buildTableFqn env.serviceName
        model.database model.schema_ model.name
      let link :=
        if optTruthy t.column_name then
          "<#E::table::" ++ pyStrOpt tfqn ++ "::columns::" ++
            t.column_name.getD "" ++ ">"
        else
          "<#E::table::" ++ pyStrOpt tfqn ++ ">"
      match entityLinkGo env manifest t rest with
      | .error e => .error e
      | .ok links => .ok (link :: links)

/-- `generate_entity_link` (lines 419-440). -/
def generate_entity_link (env : Env) (manifest : List (String × MNode))
    (t : MNode) : Except String (List String) :=
  match t.depends_on_nodes with
  | none => .error "KeyError: depends_on"
  | some nodes => entityLinkGo env manifest t nodes

/-- The per-link yield loop of `create_dbt_test_cases` (lines 301-326).
Any exception (missing key, `get_by_name` returning `None` so `.id`
raises) aborts the node, keeping the requests already yielded. -/
def testCaseLinksGo (env : Env) (t : MNode) : List String → List TestCaseReq
  | [] => []
  | link :: rest =>
    match t.meta with
    | none => []
    | some meta =>
      let sname := (pyGet meta "test_suite_name").getD "DBT_TEST_SUITE"
      match t.name, t.description with
      | some tname, some tdesc =>
        match env.getTestDefByName tname with
        | none => []
        | some defEnt =>
          match env.getTestSuiteByName sname with
          | none => []
          | some suiteEnt =>
            match t.test_metadata with
            | none => []
            | some tm =>
              match tm.kwargs with
              | none => []
              | some kw =>
                let vals :=
                  match kw.values with
                  | some vs => if vs ≠ [] then String.intercalate "," vs else ""
                  | none => ""
                match tm.name with
                | none => []
                | some pname =>
                  { name := tname
                  , description := tdesc
                  , testDefinitionId := defEnt.id
                  , entityLink := link
                  , testSuiteId := suiteEnt.id
                  , paramName := pname
                  , paramValue := vals } :: testCaseLinksGo env t rest
      | _, _ => []

/-- The body of the per-node `try` of `create_dbt_test_cases`
(lines 299-326): build the entity-link list, then yield one request per
link. -/
def createDbtTestCasesOne (env : Env) (manifest : List (String × MNode))
    (t : MNode) : List TestCaseReq :=
  match generate_entity_link env manifest t with
  | .error _ => []
  | .ok links => testCaseLinksGo env t links

/-- `create_dbt_test_cases` (lines 288-331): the `try` sits inside the
node loop, so one node's failure cannot affect the others. -/
def create_dbt_test_cases (env : Env) (manifest : List (String × MNode))
    (tests : List (String × MNode)) : List TestCaseReq :=
  tests.flatMap (fun p => createDbtTestCasesOne env manifest p.2)

/-! ## TestMappingEngine: run results

`update_dbt_test_result` parses each run-result record, converts the
"execute" timing entry with `datetime.strptime(.., "%Y-%m-%dT%H:%M:%S.%fZ")`
and `unix_time_millis`, and submits a `TestCaseResult` per dependency
node of the originating test.  The timestamp arithmetic goes through
Python floats (`timedelta.total_seconds()` returns a double and
`unix_time_millis` truncates `double * 1000`), so it is modelled with
exact IEEE-754 double semantics: doubles are carried as dyadic rationals
`m * 2 ^ e` and every operation the code performs (one correctly rounded
division, one correctly rounded multiplication, one truncation) is
modelled by its correctly rounded counterpart. -/

/-- A parsed `datetime` value as produced by `datetime.strptime`. -/
structure PyDateTime where
  year : Nat
  month : Nat
  day : Nat
  hour : Nat
  minute : Nat
  second : Nat
  usec : Nat
deriving DecidableEq

/-- Take up to `n` leading digit characters. -/
def takeDigits : Nat → List Char → List Char × List Char
  | 0, cs => ([], cs)
  | _ + 1, [] => ([], [])
  | n + 1, c :: cs =>
    if c.isDigit then
      let (ds, rest) := takeDigits n cs
      (c :: ds, rest)
    else ([], c :: cs)

/-- Digits to a natural number. -/
def digitsToNat (ds : List Char) : Nat :=
  ds.foldl (fun a c => a * 10 + (c.toNat - 48)) 0

/-- Parse between `minD` and `maxD` digits. -/
def parseNum (minD maxD : Nat) (cs : List Char) :
    Option (Nat × List Char) :=
  let (ds, rest) := takeDigits maxD cs
  if ds.length < minD then none else some (digitsToNat ds, rest)

/-- Parse the `%f` directive: 1 to 6 digits, zero-padded on the right to
microseconds. -/
def parseFrac (cs : List Char) : Option (Nat × List Char) :=
  let (ds, rest) := takeDigits 6 cs
  if ds.length = 0 then none
  else some (digitsToNat ds * 10 ^ (6 - ds.length), rest)

/-- Match one literal character. -/
def expectChar (c : Char) : List Char → Option (List Char)
  | [] => none
  | x :: rest => if x = c then some rest else none

/-- Gregorian leap year, as `calendar.isleap` / `datetime` use it. -/
def isLeap (y : Nat) : Bool :=
  y % 4 = 0 && (y % 100 != 0 || y % 400 = 0)

/-- Days in a month, for `datetime`'s day-of-month validation. -/
def daysInMonth (y m : Nat) : Nat :=
  if m = 2 then (if isLeap y then 29 else 28)
  else if m = 4 || m = 6 || m = 9 || m = 11 then 30
  else 31

/-- Validity check performed by the `datetime` constructor
(`MINYEAR = 1`; `strptime`'s `%Y` caps the year at 9999). -/
def validDateTime (dt : PyDateTime) : Bool :=
  1 ≤ dt.year && 1 ≤ dt.month && dt.month ≤ 12 &&
  1 ≤ dt.day && dt.day ≤ daysInMonth dt.year dt.month &&
  dt.hour ≤ 23 && dt.minute ≤ 59 && dt.second ≤ 59

/-- Parse a numeric field followed by a literal separator. -/
def parseNumLit (minD maxD : Nat) (c : Char) (cs : List Char) :
    Option (Nat × List Char) :=
  match parseNum minD maxD cs with
  | none => none
  | some (n, rest) =>
    match expectChar c rest with
    | none => none
    | some r => some (n, r)

/-- Parse the fractional part followed by the literal `Z` and the end of
input. -/
def parseFracEnd (cs : List Char) : Option Nat :=
  match parseFrac cs with
  | none => none
  | some (us, rest) =>
    match expectChar 'Z' rest with
    | none => none
    | some r => if r = [] then some us else none

/-- Models `datetime.strptime(s, "%Y-%m-%dT%H:%M:%S.%fZ")` (line 359):
four digits of year, one or two digits for the other numeric fields, one
to six fractional digits, the literal separators, the whole string
consumed, and the `datetime` constructor's range validation.  `none`
models the `ValueError` the call raises on mismatch. -/
def pyStrptime (s : String) : Option PyDateTime :=
  match parseNumLit 4 4 '-' s.toList with
  | none => none
  | some (y, r1) =>
  match parseNumLit 1 2 '-' r1 with
  | none => none
  | some (mo, r2) =>
  match parseNumLit 1 2 'T' r2 with
  | none => none
  | some (d, r3) =>
  match parseNumLit 1 2 ':' r3 with
  | none => none
  | some (h, r4) =>
  match parseNumLit 1 2 ':' r4 with
  | none => none
  | some (mi, r5) =>
  match parseNumLit 1 2 '.' r5 with
  | none => none
  | some (se, r6) =>
  match parseFracEnd r6 with
  | none => none
  | some us =>
    let dt : PyDateTime := ⟨y, mo, d, h, mi, se, us⟩
    if validDateTime dt then some dt else none

/-- Days from 1970-01-01 to the given civil date (Howard Hinnant's
`days_from_civil`, the standard proleptic-Gregorian day count that
`datetime` subtraction realises). -/
def daysFromCivil (y m d : Nat) : Int :=
  let y' := if m ≤ 2 then y - 1 else y
  let era := y' / 400
  let yoe := y' % 400
  let mp := (m + 9) % 12
  let doy := (153 * mp + 2) / 5 + d - 1
  let doe := yoe * 365 + yoe / 4 - yoe / 100 + doy
  ((era * 146097 + doe : Nat) : Int) - 719468

/-- An IEEE-754 double carried exactly as a dyadic rational
`m * 2 ^ e`.  Every double arising from the timestamp conversion lies in
the normal range, where this representation is exact. -/
structure Dyadic where
  m : Int
  e : Int
deriving DecidableEq

/-- Fuel-driven floor of the base-2 logarithm (0 for inputs ≤ 1),
written with structural recursion so it reduces in the kernel; the fuel
covers every magnitude the conversion can produce. -/
def natLog2Aux : Nat → Nat → Nat
  | 0, _ => 0
  | fuel + 1, n => if n ≤ 1 then 0 else natLog2Aux fuel (n / 2) + 1

/-- Floor of the base-2 logarithm of a positive natural. -/
def floorLog2 (n : Nat) : Nat := natLog2Aux 4096 n

/-- Decides `2 ^ g ≤ a / d` for positive `a`, `d`. -/
def pow2ge (a d : Nat) (g : Int) : Bool :=
  if 0 ≤ g then d * 2 ^ g.toNat ≤ a else d ≤ a * 2 ^ (-g).toNat

/-- `⌊log₂ (a / d)⌋` for positive `a`, `d`: the bit-length difference,
corrected by one comparison. -/
def ratLog2 (a d : Nat) : Int :=
  let g : Int := (floorLog2 a : Int) - (floorLog2 d : Int)
  if pow2ge a d g then g else g - 1

/-- Round `N / D` to the nearest integer, ties to even. -/
def roundMantissa (N D : Nat) : Nat :=
  let q := N / D
  let r := N % D
  if 2 * r < D then q
  else if D < 2 * r then q + 1
  else if q % 2 = 0 then q else q + 1

/-- The round-to-nearest-even IEEE-754 double closest to `n / d`
(`d > 0`), as a dyadic: the 53-bit significand is scaled into
`[2^52, 2^53]` and rounded there.  Exponent-range limits (overflow,
subnormals) are not modelled; no value the code converts approaches
them. -/
def roundRatToDouble (n : Int) (d : Nat) : Dyadic :=
  if n = 0 then ⟨0, 0⟩
  else
    let a := n.natAbs
    let e : Int := ratLog2 a d - 52
    let ND : Nat × Nat :=
      if 0 ≤ e then (a, d * 2 ^ e.toNat) else (a * 2 ^ (-e).toNat, d)
    let m := roundMantissa ND.1 ND.2
    ⟨if n < 0 then -(m : Int) else (m : Int), e⟩

/-- Round an exact integer multiple of `2 ^ e` back to double
precision — the float multiplication `ts * 1000`, whose second factor is
exactly representable, produces exactly this. -/
def roundDyadic (m e : Int) : Dyadic :=
  let r := roundRatToDouble m 1
  ⟨r.m, r.e + e⟩

/-- Python `int(..)` applied to a double: truncation toward zero. -/
def truncDyadic (x : Dyadic) : Int :=
  if 0 ≤ x.e then x.m * ((2 ^ x.e.toNat : Nat) : Int)
  else if 0 ≤ x.m then ((x.m.toNat / 2 ^ (-x.e).toNat : Nat) : Int)
  else -((x.m.natAbs / 2 ^ (-x.e).toNat : Nat) : Int)

/-- The exact total microseconds of `dt - epoch`: `datetime`
subtraction yields an exact integer-microsecond `timedelta`. -/
def totalMicros (dt : PyDateTime) : Int :=
  (daysFromCivil dt.year dt.month dt.day * 86400 + dt.hour * 3600 +
    dt.minute * 60 + dt.second) * 1000000 + (dt.usec : Int)

/-- `unix_time` (lines 442-445): `(dt - epoch).total_seconds()`.
`timedelta.total_seconds` divides the exact microsecond count by
`10 ** 6` with float true division, which CPython computes as the
correctly rounded double of the exact quotient; the result is that
double. -/
def unix_time (dt : PyDateTime) : Dyadic :=
  roundRatToDouble (totalMicros dt) 1000000

/-- `unix_time_millis` (lines 447-448): `int(unix_time(dt) * 1000)` —
one correctly rounded double multiplication followed by truncation
toward zero. -/
def unix_time_millis (dt : PyDateTime) : Int :=
  truncDyadic (roundDyadic ((unix_time dt).m * 1000) (unix_time dt).e)

/-- One entry of a run-result record's `timing` list. -/
structure TimingEntry where
  name : Option String
  completed_at : Option String
deriving DecidableEq

/-- One record of `run_results["results"]`. -/
structure RunResult where
  status : Option String
  timing : Option (List TimingEntry)
  unique_id : Option String
deriving DecidableEq

/-- The `run_results` document. -/
structure RunResults where
  results : Option (List RunResult)
deriving DecidableEq

/-- The `TestCaseResult` payload built at lines 364-373. -/
structure TCResult where
  timestamp : Option Int
  testCaseStatus : String
  resultName : Option String
  resultValue : String
deriving DecidableEq

/-- Status mapping, lines 342-349: "success" -> (Success, 1),
"failure" -> (Failed, 0), anything else -> (Aborted, -1). -/
def mapStatus (s : Option String) : String × Int :=
  if s = some "success" then ("Success", 1)
  else if s = some "failure" then ("Failed", 0)
  else ("Aborted", -1)

/-- The scan of the timing list, lines 354-356: each entry named
"execute" overwrites the completion time (`.get` default `""` for the
name, and the raw `.get("completed_at")` for the value). -/
def executeCompletedAt (ts : List TimingEntry) : Option String :=
  ts.foldl
    (fun acc e => if e.name.getD "" = "execute" then e.completed_at else acc)
    none

/-- Construction of the `TestCaseResult` for one run-result record
(lines 341-373): status mapping, timing scan, optional timestamp
conversion.  `.error` models an exception escaping to the per-record
handler (missing `timing` key, unparsable completion time). -/
def recordResult (rr : RunResult) : Except String TCResult :=
  let stv := mapStatus rr.status
  match rr.timing with
  | none => .error "KeyError: timing"
  | some ts =>
    let ca := executeCompletedAt ts
    if optTruthy ca then
      match pyStrptime (ca.getD "") with
      | none => .error "ValueError: strptime"
      | some dt =>
        .ok ⟨some (unix_time_millis dt), stv.1, rr.unique_id, toString stv.2⟩
    else .ok ⟨none, stv.1, rr.unique_id, toString stv.2⟩

/-- The dependency loop of lines 378-395: build the test-case fqn from
the dependency's manifest node and submit the result.  A missing
dependency id (`model.get(..)` on `None`) or missing test-node `name`
raises, aborting the record but keeping earlier submissions. -/
def resultSubsGo (env : Env) (manifest : List (String × MNode)) (tn : MNode)
    (res : TCResult) : List String → List (String × TCResult)
  | [] => []
  | node :: rest =>
    match pyGet manifest node with
    | none => []
    | some model =>
      match tn.name with
      | none => []
      | some tname =>
        let f := env.buildTestCaseFqn env.serviceName
          model.database model.schema_ model.name tn.column_name tname
        (f, res) :: resultSubsGo env manifest tn res rest

/-- The per-record `try` body of `update_dbt_test_result`
(lines 340-397).  Returns the list of `(test case fqn, result)`
submissions made for this record. -/
def updateOne (env : Env) (manifest : List (String × MNode))
    (dbt_tests : List (String × MNode)) (rr : RunResult) :
    List (String × TCResult) :=
  match recordResult rr with
  | .error _ => []
  | .ok res =>
    match rr.unique_id with
    | none => []
    | some uid =>
      match pyGet dbt_tests uid with
      | none => []
      | some tn =>
        match tn.depends_on_nodes with
        | none => []
        | some nodes => resultSubsGo env manifest tn res nodes

/-- The record loop of `update_dbt_test_result` (lines 339-397): the
`try` sits inside the loop, so records fail independently. -/
def updateRun (env : Env) (manifest : List (String × MNode))
    (dbt_tests : List (String × MNode)) (rrs : List RunResult) :
    List (String × TCResult) :=
  rrs.flatMap (updateOne env manifest dbt_tests)

/-- `update_dbt_test_result` (lines 333-397): no-op when no run results
were supplied; `run_results.get("results")` returning `None` raises
outside any handler. -/
def update_dbt_test_result (env : Env) (manifest : List (String × MNode))
    (dbt_tests : List (String × MNode)) (run_results : Option RunResults) :
    Except String (List (String × TCResult)) :=
  match run_results with
  | none => .ok []
  | some r =>
    match r.results with
    | none => .error "TypeError: results is None"
    | some rrs => .ok (updateRun env manifest dbt_tests rrs)

/-! ## Concrete instances

A small executable environment and concrete nodes, used to evaluate the
embedding at specific inputs. -/

/-- A concrete environment: dotted-name fqn builders, a catalog that
knows every table, no users or teams. -/
def env0 : Env :=
  { serviceName := "svc"
  , getColumnType := fun t => t
  , buildModelFqn := fun s d sc n => s ++ "." ++ d ++ "." ++ sc ++ "." ++ n
  , buildTableFqn := fun s d sc n =>
      some (s ++ "." ++ pyStrOpt d ++ "." ++ pyStrOpt sc ++ "." ++ pyStrOpt n)
  , buildUserFqn := fun _ => none
  , buildTeamFqn := fun _ => none
  , getUserRef := fun _ => none
  , getTeamRef := fun _ => none
  , getTableByName := fun s => some ⟨s⟩
  , getTestDefByName := fun s => some ⟨s⟩
  , getTestSuiteByName := fun s => some ⟨s⟩
  , buildTestCaseFqn := fun s d sc t c n =>
      s ++ "." ++ pyStrOpt d ++ "." ++ pyStrOpt sc ++ "." ++ pyStrOpt t ++
        "." ++ pyStrOpt c ++ "." ++ n }

/-- A manifest node with every optional key absent. -/
def mnodeEmpty : MNode :=
  { alias_ := none, name := none, resource_type := none, database := none
  , schema_ := none, raw_sql := none, compiled_sql := none
  , description := none, depends_on_nodes := none, meta := none
  , columns := [], column_name := none, test_metadata := none
  , root_path := none, original_file_path := none }

/-- A well-formed model node. -/
def modelNode1 : MNode :=
  { mnodeEmpty with
      name := some "t1", resource_type := some "model"
    , database := some "db", schema_ := some "sch"
    , root_path := some "root", original_file_path := some "models/t1.sql" }

/-- A test node whose `name` and `alias` keys are both absent: line 81
raises before the `resource_type` check is reached. -/
def testNodeBad : MNode :=
  { mnodeEmpty with resource_type := some "test" }

/-- A well-formed test node named `D`, depending on `model.b`. -/
def testNodeGood : MNode :=
  { mnodeEmpty with
      name := some "D", resource_type := some "test"
    , description := some "a dbt test"
    , meta := some []
    , depends_on_nodes := some ["model.b"]
    , test_metadata := some ⟨some "p", some ⟨none⟩⟩ }

/-- A test node whose `meta` key is absent: line 250 raises. -/
def testNodeNoMeta : MNode :=
  { testNodeGood with meta := none }

/-- A catalog node with no columns and no owner. -/
def cnodeGood : CNode := ⟨some [], some ⟨none⟩⟩

/-- A two-entry manifest: one test node, one model node. -/
def manifest1 : List (String × MNode) :=
  [("test.a", testNodeGood), ("model.b", modelNode1)]

/-- The catalog counterpart of `manifest1`: only the model node has a
catalog entry. -/
def catalog1 : List (String × CNode) := [("model.b", cnodeGood)]

/-- A suite oracle whose lookups never find anything (an empty external
catalog whose state does not change during the run). -/
def oracleNone : SuiteOracle := ⟨fun _ _ => false, fun _ _ => false⟩

/-- A suite oracle that sees exactly the requests already yielded in
this run (the caller persists each yield before the next lookup). -/
def oracleRefl : SuiteOracle :=
  ⟨fun prev n => prev.any (fun r =>
      match r with
      | .suite m _ => m = n
      | _ => false)
  , fun prev n => prev.any (fun r =>
      match r with
      | .defn m _ _ _ => m = n
      | _ => false)⟩

/-- A node with one resolvable and one missing dependency id. -/
def depNode : MNode :=
  { mnodeEmpty with depends_on_nodes := some ["model.b", "missing"] }

/-- A data model whose upstream list names the table `svc.db.sch.t1`. -/
def dmUp : DataModel :=
  { modelType := "DBT", description := none, path := "p", rawSql := ""
  , sql := "", columns := [], upstream := ["svc.db.sch.t1"], owner := none }

/-- A one-entry DataModel map for the lineage witness. -/
def dms1 : List (String × DataModel) := [("svc.db.sch.t2", dmUp)]

/-- A catalog column with a non-empty comment. -/
def ccolC7 : CColumn := ⟨some "C1", some "int", some 1, some "a comment"⟩

/-- A manifest node whose column `c1` carries an empty-string
description. -/
def mnodeC7 : MNode := { mnodeEmpty with columns := [("c1", ⟨some ""⟩)] }

/-- The catalog node pairing `ccolC7` under key `c1`. -/
def cnodeC7 : CNode := ⟨some [("c1", ccolC7)], some ⟨none⟩⟩

/-- Is a request a create-suite request with the given name? -/
def isSuiteNamed (n : String) : SuiteDefReq → Bool
  | .suite m _ => m = n
  | _ => false

/-- Is a request a create-definition request with the given name? -/
def isDefnNamed (n : String) : SuiteDefReq → Bool
  | .defn m _ _ _ => m = n
  | _ => false

/-- An oracle is reflective when its existence checks report any suite /
definition name already yielded earlier in the run (i.e. the caller
persists each create request into the catalog before the next lookup). -/
def reflectiveOracle (oracle : SuiteOracle) : Prop :=
  (∀ prev n, (∃ r ∈ prev, isSuiteNamed n r) → oracle.suiteExists prev n = true)
  ∧ (∀ prev n, (∃ r ∈ prev, isDefnNamed n r) → oracle.defnExists prev n = true)

/-- The timing list of a run-result record with one "execute" entry. -/
def timingExec : List TimingEntry :=
  [⟨some "execute", some "2023-01-01T00:00:00.000000Z"⟩]

/-- A run-result record for the test `test.a` with an "execute" timing
entry. -/
def rrExec : RunResult := ⟨some "success", some timingExec, some "test.a"⟩

/-- The datetime parsed from `2023-01-01T00:00:00.000000Z`. -/
def dt2023 : PyDateTime := ⟨2023, 1, 1, 0, 0, 0, 0⟩

/-! ## Lemmas about `_parse_data_model` -/

theorem processNode_test_inv {env : Env} {manifest : List (String × MNode)}
    {catalog : List (String × CNode)} {k : String} {m : MNode}
    {k' : String} {m' : MNode}
    (h : processNode env manifest catalog k m = .ok (.test k' m')) :
    k' = k ∧ m' = m := by
  unfold processNode at h
  repeat' split at h
  all_goals try simp_all
  all_goals (rcases hc : colsOf env m (pyGet catalog k) with e | cols)
  all_goals try rw [hc] at h
  all_goals try simp_all
  all_goals (rcases hg : pyGet catalog k with _ | c)
  all_goals try rw [hg] at h
  all_goals try simp_all
  all_goals (rcases hm : c.metadata with _ | md)
  all_goals try rw [hm] at h
  all_goals simp_all

theorem processNode_model_rt {env : Env} {manifest : List (String × MNode)}
    {catalog : List (String × CNode)} {k : String} {m : MNode}
    {f : String} {dm : DataModel}
    (h : processNode env manifest catalog k m = .ok (.model f dm)) :
    m.resource_type ≠ some "test" := by
  intro hrt
  unfold processNode at h
  repeat' split at h
  all_goals try simp_all
  all_goals (rcases hc : colsOf env m (pyGet catalog k) with e | cols)
  all_goals try rw [hc] at h
  all_goals simp_all

theorem parseGo_cons (env : Env) (manifest : List (String × MNode))
    (catalog : List (String × CNode)) (st : ParseState)
    (e : String × MNode) (l : List (String × MNode)) :
    parseGo env manifest catalog st (e :: l) =
      parseGo env manifest catalog (parseStep env manifest catalog st e) l := rfl

theorem parseGo_append (env : Env) (manifest : List (String × MNode))
    (catalog : List (String × CNode)) (st : ParseState)
    (l₁ l₂ : List (String × MNode)) :
    parseGo env manifest catalog st (l₁ ++ l₂) =
      parseGo env manifest catalog (parseGo env manifest catalog st l₁) l₂ :=
  List.foldl_append _ _ _ _

theorem parseStep_tests_stable {env : Env} {manifest : List (String × MNode)}
    {catalog : List (String × CNode)} {st : ParseState}
    {e : String × MNode} {k : String} (hne : e.1 ≠ k) :
    pyGet (parseStep env manifest catalog st e).dbt_tests k =
      pyGet st.dbt_tests k := by
  unfold parseStep
  cases hp : processNode env manifest catalog e.1 e.2 with
  | error _ => rfl
  | ok o =>
    cases o with
    | test k' m' =>
      obtain ⟨hk, _⟩ := processNode_test_inv hp
      subst hk
      simpa using pyGet_pyInsert_ne st.dbt_tests m' (fun hc => hne hc.symm)
    | model f dm => rfl

theorem parseGo_tests_stable {env : Env} {manifest : List (String × MNode)}
    {catalog : List (String × CNode)} {k : String}
    (l : List (String × MNode)) (st : ParseState)
    (h : k ∉ l.map Prod.fst) :
    pyGet (parseGo env manifest catalog st l).dbt_tests k =
      pyGet st.dbt_tests k := by
  induction l generalizing st with
  | nil => rfl
  | cons e t ih =>
    simp only [List.map_cons, List.mem_cons] at h
    push_neg at h
    rw [parseGo_cons, ih _ h.2]
    exact parseStep_tests_stable (fun hc => h.1 hc.symm)

theorem parseStep_models_stable {env : Env} {manifest : List (String × MNode)}
    {catalog : List (String × CNode)} {st : ParseState}
    {e : String × MNode} {f : String}
    (h : ∀ dm, processNode env manifest catalog e.1 e.2 ≠ .ok (.model f dm)) :
    pyGet (parseStep env manifest catalog st e).data_models f =
      pyGet st.data_models f := by
  unfold parseStep
  cases hp : processNode env manifest catalog e.1 e.2 with
  | error _ => rfl
  | ok o =>
    cases o with
    | test k' m' => rfl
    | model f' dm =>
      have hne : f ≠ f' := by
        intro hc
        exact h dm (by rw [hp, hc])
      simpa using pyGet_pyInsert_ne st.data_models dm hne

theorem parseGo_models_stable {env : Env} {manifest : List (String × MNode)}
    {catalog : List (String × CNode)} {f : String}
    (l : List (String × MNode)) (st : ParseState)
    (h : ∀ e ∈ l, ∀ dm, processNode env manifest catalog e.1 e.2 ≠ .ok (.model f dm)) :
    pyGet (parseGo env manifest catalog st l).data_models f =
      pyGet st.data_models f := by
  induction l generalizing st with
  | nil => rfl
  | cons e t ih =>
    rw [parseGo_cons, ih _ (fun e' he' => h e' (List.mem_cons_of_mem _ he'))]
    exact parseStep_models_stable (h e (List.mem_cons_self _ _))

theorem parseGo_models_nodup {env : Env} {manifest : List (String × MNode)}
    {catalog : List (String × CNode)} (l : List (String × MNode))
    (st : ParseState) (h : (st.data_models.map Prod.fst).Nodup) :
    (((parseGo env manifest catalog st l).data_models.map Prod.fst)).Nodup := by
  induction l generalizing st with
  | nil => exact h
  | cons e t ih =>
    rw [parseGo_cons]
    refine ih _ ?_
    unfold parseStep
    cases hp : processNode env manifest catalog e.1 e.2 with
    | error _ => exact h
    | ok o =>
      cases o with
      | test k' m' => exact h
      | model f dm => exact nodup_keys_pyInsert dm h

theorem parseGo_models_mem {env : Env} {manifest : List (String × MNode)}
    {catalog : List (String × CNode)} {f : String} {dm : DataModel}
    (l : List (String × MNode)) (st : ParseState)
    (h : (f, dm) ∈ (parseGo env manifest catalog st l).data_models) :
    (f, dm) ∈ st.data_models ∨
      ∃ e ∈ l, processNode env manifest catalog e.1 e.2 = .ok (.model f dm) := by
  induction l generalizing st with
  | nil => exact Or.inl h
  | cons e t ih =>
    rw [parseGo_cons] at h
    rcases ih _ h with hmem | ⟨e', he', ho⟩
    · unfold parseStep at hmem
      cases hp : processNode env manifest catalog e.1 e.2 with
      | error err => rw [hp] at hmem; exact Or.inl hmem
      | ok o =>
        cases o with
        | test k' m' => rw [hp] at hmem; exact Or.inl hmem
        | model f0 dm0 =>
          rw [hp] at hmem
          rcases mem_pyInsert hmem with heq | hin
          · right
            refine ⟨e, List.mem_cons_self _ _, ?_⟩
            rw [hp]
            obtain ⟨h1, h2⟩ := Prod.mk.injEq .. ▸ heq
            rw [h1, h2]
          · exact Or.inl hin
    · exact Or.inr ⟨e', List.mem_cons_of_mem _ he', ho⟩

/-! ## Claims C1 and C2 -/

/-- C1 counterexample: a manifest node with `resource_type = "test"` but
with neither an `alias` nor a `name` key raises at line 81, before the
routing check at line 89, so it is never stored in the test-node map —
the claim's unconditional "it is routed to the test-node map" is false. -/
theorem c1_counterexample :
    testNodeBad.resource_type = some "test" ∧
    (parse_data_model env0 [("t1", testNodeBad)] []).dbt_tests = [] ∧
    (parse_data_model env0 [("t1", testNodeBad)] []).data_models = [] :=
  ⟨rfl, rfl, rfl⟩

/-- C1 (amended): over one run of `_parse_data_model` on a merged
manifest map with distinct keys: (i) a test node that reaches the
routing check without an exception is stored in the test-node map under
its key; (ii) every entry of the derived DataModel map comes from a
non-test node that resolved without an exception; (iii) the DataModel
map holds at most one entry per fully-qualified name; and (iv) when
distinct nodes never resolve to the same fully-qualified name, every
non-test node that resolves without an exception is retrievable from the
DataModel map under its fully-qualified name. -/
theorem c1_theorem (env : Env) (manifest : List (String × MNode))
    (catalog : List (String × CNode))
    (hkeys : (manifest.map Prod.fst).Nodup) :
    (∀ k m, (k, m) ∈ manifest →
        processNode env manifest catalog k m = .ok (.test k m) →
        pyGet (parse_data_model env manifest catalog).dbt_tests k = some m)
    ∧ (∀ f dm, (f, dm) ∈ (parse_data_model env manifest catalog).data_models →
        ∃ e ∈ manifest, e.2.resource_type ≠ some "test" ∧
          processNode env manifest catalog e.1 e.2 = .ok (.model f dm))
    ∧ ((parse_data_model env manifest catalog).data_models.map Prod.fst).Nodup
    ∧ ((∀ e₁ ∈ manifest, ∀ e₂ ∈ manifest, ∀ f dm₁ dm₂,
          processNode env manifest catalog e₁.1 e₁.2 = .ok (.model f dm₁) →
          processNode env manifest catalog e₂.1 e₂.2 = .ok (.model f dm₂) →
          e₁ = e₂) →
        ∀ k m f dm, (k, m) ∈ manifest →
          processNode env manifest catalog k m = .ok (.model f dm) →
          pyGet (parse_data_model env manifest catalog).data_models f = some dm) := by
  refine ⟨?_, ?_, ?_, ?_⟩
  · intro k m hmem hok
    obtain ⟨l₁, l₂, hsplit⟩ := List.append_of_mem hmem
    subst hsplit
    have hk2 : k ∉ l₂.map Prod.fst := by
      rw [List.map_append, List.map_cons] at hkeys
      exact (List.nodup_cons.mp (List.nodup_append.mp hkeys).2.1).1
    unfold parse_data_model
    rw [parseGo_append, parseGo_cons, parseGo_tests_stable l₂ _ hk2]
    simp only [parseStep, hok]
    exact pyGet_pyInsert_self _ _ _
  · intro f dm hmem
    rcases parseGo_models_mem manifest ⟨[], []⟩ hmem with hin | ⟨e, he, ho⟩
    · simp at hin
    · exact ⟨e, he, processNode_model_rt ho, ho⟩
  · exact parseGo_models_nodup manifest ⟨[], []⟩ (by simp)
  · intro hinj k m f dm hmem hok
    obtain ⟨l₁, l₂, hsplit⟩ := List.append_of_mem hmem
    subst hsplit
    have hk2 : k ∉ l₂.map Prod.fst := by
      rw [List.map_append, List.map_cons] at hkeys
      exact (List.nodup_cons.mp (List.nodup_append.mp hkeys).2.1).1
    unfold parse_data_model
    rw [parseGo_append, parseGo_cons]
    rw [parseGo_models_stable l₂ _ ?_]
    · simp only [parseStep, hok]
      exact pyGet_pyInsert_self _ _ _
    · intro e he dm' hok'
      have hkm_mem : (k, m) ∈ l₁ ++ (k, m) :: l₂ :=
        List.mem_append.mpr (Or.inr (List.mem_cons_self _ _))
      have he_mem : e ∈ l₁ ++ (k, m) :: l₂ :=
        List.mem_append.mpr (Or.inr (List.mem_cons_of_mem _ he))
      have heq := hinj e he_mem (k, m) hkm_mem f dm' dm hok' hok
      have : e.1 ∈ l₂.map Prod.fst := List.mem_map_of_mem Prod.fst he
      rw [heq] at this
      exact hk2 this

/-- C1 witness: on a concrete two-node manifest the well-formed test
node ends up in the test-node map. -/
theorem c1_witness :
    (manifest1.map Prod.fst).Nodup ∧
    pyGet (parse_data_model env0 manifest1 catalog1).dbt_tests "test.a" =
      some testNodeGood :=
  ⟨by decide,
   (c1_theorem env0 manifest1 catalog1 (by decide)).1 "test.a" testNodeGood
     (by decide) rfl⟩

/-- C2: evaluation at the failing input.  A non-test node whose key has
no catalog counterpart raises `TypeError` at line 100
(`cnode["metadata"]` with `cnode = None`), so the node is skipped and
the DataModel map stays empty — the spec instead promises a DataModel
with an empty column list for such a node. -/
theorem c2_code_behavior :
    processNode env0 [("m1", modelNode1)] [] "m1" modelNode1 =
      .error "TypeError: cnode is None" ∧
    parse_data_model env0 [("m1", modelNode1)] [] = ⟨[], []⟩ :=
  ⟨rfl, rfl⟩

/-! ## Claims C5, C6, C7, C10 -/

theorem upstreamStep_length_le (env : Env) (manifest : List (String × MNode))
    (acc : List String) (node : String) :
    (upstreamStep env manifest acc node).length ≤ acc.length + 1 := by
  unfold upstreamStep
  repeat' split
  all_goals try simp
  all_goals (split <;> simp)

theorem upstreamStep_missing {env : Env} {manifest : List (String × MNode)}
    (acc : List String) {node : String} (h : pyGet manifest node = none) :
    upstreamStep env manifest acc node = acc := by
  unfold upstreamStep
  rw [h]

theorem upstreamFold_length_le (env : Env) (manifest : List (String × MNode)) :
    ∀ (nodes : List String) (acc : List String),
      (nodes.foldl (upstreamStep env manifest) acc).length ≤
        acc.length + nodes.length := by
  intro nodes
  induction nodes with
  | nil => intro acc; simp
  | cons n t ih =>
    intro acc
    have h1 := ih (upstreamStep env manifest acc n)
    have h2 := upstreamStep_length_le env manifest acc n
    simp only [List.foldl_cons, List.length_cons]
    omega

theorem upstreamFold_length_lt (env : Env) (manifest : List (String × MNode)) :
    ∀ (nodes : List String) (acc : List String),
      (∃ n ∈ nodes, pyGet manifest n = none) →
      (nodes.foldl (upstreamStep env manifest) acc).length <
        acc.length + nodes.length := by
  intro nodes
  induction nodes with
  | nil => intro acc h; simp at h
  | cons n t ih =>
    intro acc hex
    simp only [List.foldl_cons, List.length_cons]
    rcases hex with ⟨n', hmem, hn'⟩
    rcases List.mem_cons.mp hmem with heq | hmem'
    · subst heq
      rw [upstreamStep_missing acc hn']
      have := upstreamFold_length_le env manifest t acc
      omega
    · have h1 := ih (upstreamStep env manifest acc n) ⟨n', hmem', hn'⟩
      have h2 := upstreamStep_length_le env manifest acc n
      omega

/-- C5: `_parse_data_model_upstream` returns at most one resolved name
per entry of `depends_on.nodes`, and strictly fewer when at least one
referenced id is absent from the merged manifest-entity map (the miss is
skipped without aborting the node). -/
theorem c5_theorem (env : Env) (manifest : List (String × MNode)) (m : MNode)
    (deps : List String) (h : m.depends_on_nodes = some deps) :
    (parse_data_model_upstream env manifest m).length ≤ deps.length ∧
    ((∃ n ∈ deps, pyGet manifest n = none) →
      (parse_data_model_upstream env manifest m).length < deps.length) := by
  unfold parse_data_model_upstream
  rw [h]
  constructor
  · simpa using upstreamFold_length_le env manifest deps []
  · intro hex
    simpa using upstreamFold_length_lt env manifest deps [] hex

/-- C5 witness: one resolvable and one missing dependency give exactly
one resolved upstream name out of two declared dependencies. -/
theorem c5_witness :
    depNode.depends_on_nodes = some ["model.b", "missing"] ∧
    (∃ n ∈ ["model.b", "missing"], pyGet manifest1 n = none) ∧
    (parse_data_model_upstream env0 manifest1 depNode).length < 2 :=
  ⟨rfl, by decide,
   (c5_theorem env0 manifest1 depNode ["model.b", "missing"] rfl).2 (by decide)⟩

/-- C6: every edge yielded by `create_dbt_lineage` comes from a
(data model, upstream name) pair for which both qualified-name lookups
returned an entity, and the edge runs from the upstream entity to the
downstream entity with both endpoint types `"table"`. -/
theorem c6_theorem (env : Env) (dms : List (String × DataModel))
    (e : LineageEdge) (he : e ∈ create_dbt_lineage env dms) :
    ∃ p ∈ dms, ∃ up ∈ p.2.upstream, ∃ fe te : Entity,
      env.getTableByName up = some fe ∧ env.getTableByName p.1 = some te ∧
      e = ⟨fe.id, "table", te.id, "table"⟩ := by
  unfold create_dbt_lineage at he
  rcases List.mem_flatMap.mp he with ⟨p, hp, hin⟩
  unfold lineageForModel at hin
  rcases List.mem_filterMap.mp hin with ⟨up, hup, hmatch⟩
  refine ⟨p, hp, up, hup, ?_⟩
  rcases hf : env.getTableByName up with _ | fe
  · rw [hf] at hmatch
    simp at hmatch
  · rcases ht : env.getTableByName p.1 with _ | te
    · rw [hf, ht] at hmatch
      simp at hmatch
    · rw [hf, ht] at hmatch
      simp at hmatch
      exact ⟨fe, te, rfl, rfl, hmatch.symm⟩

/-- C6 witness: with both endpoints present in the catalog, the single
(model, upstream) pair yields the t1 → t2 edge. -/
theorem c6_witness :
    (⟨"svc.db.sch.t1", "table", "svc.db.sch.t2", "table"⟩ : LineageEdge) ∈
      create_dbt_lineage env0 dms1 ∧
    (∃ p ∈ dms1, ∃ up ∈ p.2.upstream, ∃ fe te : Entity,
      env0.getTableByName up = some fe ∧ env0.getTableByName p.1 = some te ∧
      (⟨"svc.db.sch.t1", "table", "svc.db.sch.t2", "table"⟩ : LineageEdge) =
        ⟨fe.id, "table", te.id, "table"⟩) :=
  ⟨by decide, c6_theorem env0 dms1 _ (by decide)⟩

/-- C7 counterexample: the manifest column entry for `c1` carries the
empty-string description and the catalog comment is non-empty, yet the
resolved column description is `none` — neither the manifest description
nor the catalog comment, refuting the claimed precedence as stated. -/
theorem c7_counterexample :
    pyGet mnodeC7.columns "c1" = some ⟨some ""⟩ ∧
    ccolC7.comment = some "a comment" ∧
    parse_data_model_columns env0 mnodeC7 cnodeC7 =
      .ok [⟨"c1", none, "int", 1, 1⟩] :=
  ⟨rfl, rfl, rfl⟩

/-- C7 (amended): description precedence with Python truthiness — a
present non-empty manifest description always wins over the catalog
comment; the comment applies only when the manifest description is
literally absent and is itself normalised (empty comment becomes none);
a present-but-empty manifest description yields none and suppresses the
comment.  The resolution is a pure function of the manifest/catalog
column pair, hence deterministic. -/
theorem c7_theorem (mcols : List (String × MColumn)) (key : String)
    (comment : Option String) :
    (∀ d, manifestDesc mcols key = some d → d ≠ "" →
        resolveDescription mcols key comment = some d)
    ∧ (∀ c, manifestDesc mcols key = none → comment = some c → c ≠ "" →
        resolveDescription mcols key comment = some c)
    ∧ (manifestDesc mcols key = none → optTruthy comment = false →
        resolveDescription mcols key comment = none)
    ∧ (manifestDesc mcols key = some "" →
        resolveDescription mcols key comment = none) := by
  refine ⟨?_, ?_, ?_, ?_⟩
  · intro d hd hne
    simp [resolveDescription, hd, pyTruthyOpt, hne]
  · intro c hd hc hne
    simp [resolveDescription, hd, hc, pyTruthyOpt, hne]
  · intro hd hc
    rcases comment with _ | c
    · simp [resolveDescription, hd, pyTruthyOpt]
    · simp [optTruthy] at hc
      simp [resolveDescription, hd, pyTruthyOpt, hc]
  · intro hd
    simp [resolveDescription, hd, pyTruthyOpt]

/-- C7 witness: a non-empty manifest description wins over a non-empty
catalog comment. -/
theorem c7_witness :
    manifestDesc [("c1", (⟨some "manifest text"⟩ : MColumn))] "c1" =
      some "manifest text" ∧
    resolveDescription [("c1", ⟨some "manifest text"⟩)] "c1"
      (some "catalog comment") = some "manifest text" :=
  ⟨rfl,
   (c7_theorem [("c1", ⟨some "manifest text"⟩)] "c1"
     (some "catalog comment")).1 "manifest text" rfl (by decide)⟩

/-- C10: a catalog column whose matching manifest entry carries an
empty-string description resolves to a `none` description even when the
catalog comment is non-empty: the comment fallback fires only when the
manifest description is literally absent. -/
theorem c10_theorem (env : Env) (m : MNode) (c : CNode) (k nm ty : String)
    (ix : Int) (cc : CColumn) (mc : MColumn) (cm : String)
    (hc : c.columns = some [(k, cc)])
    (hname : cc.name = some nm) (hty : cc.type_ = some ty)
    (hix : cc.index = some ix)
    (hmc : pyGet m.columns (pyLower k) = some mc)
    (hdesc : mc.description = some "")
    (_hcm : cc.comment = some cm) (_hne : cm ≠ "") :
    parse_data_model_columns env m c =
      .ok [⟨pyLower nm, none, env.getColumnType ty, 1, ix⟩] := by
  unfold parse_data_model_columns
  rw [hc]
  simp [List.foldlM, parseColumnStep, hname, hty, hix, resolveDescription,
    manifestDesc, hmc, hdesc, pyTruthyOpt]

/-- C10 witness: evaluation of the column parser at a concrete pair with
empty manifest description and non-empty comment. -/
theorem c10_witness :
    cnodeC7.columns = some [("c1", ccolC7)] ∧
    pyGet mnodeC7.columns "c1" = some ⟨some ""⟩ ∧
    parse_data_model_columns env0 mnodeC7 cnodeC7 =
      .ok [⟨"c1", none, "int", 1, 1⟩] :=
  ⟨rfl, rfl,
   c10_theorem env0 mnodeC7 cnodeC7 "c1" "C1" "int" 1 ccolC7 ⟨some ""⟩
     "a comment" rfl rfl rfl rfl rfl rfl rfl (by decide)⟩

/-! ## Claims C3 and C4 -/

theorem suiteDefOne_suite_le (oracle : SuiteOracle)
    (yielded : List SuiteDefReq) (t : MNode) (n : String) :
    (suiteDefOne oracle yielded t).1.countP (isSuiteNamed n) ≤ 1 := by
  unfold suiteDefOne
  repeat' split
  all_goals try simp [List.countP_append, List.countP_cons, isSuiteNamed]
  all_goals repeat' split
  all_goals try simp [List.countP_append, List.countP_cons, isSuiteNamed]
  all_goals (split <;> simp)

theorem suiteDefOne_defn_le (oracle : SuiteOracle)
    (yielded : List SuiteDefReq) (t : MNode) (n : String) :
    (suiteDefOne oracle yielded t).1.countP (isDefnNamed n) ≤ 1 := by
  unfold suiteDefOne
  repeat' split
  all_goals try simp [List.countP_append, List.countP_cons, isDefnNamed]
  all_goals repeat' split
  all_goals try simp [List.countP_append, List.countP_cons, isDefnNamed]
  all_goals (split <;> simp)

theorem suiteDefOne_suite_none (oracle : SuiteOracle)
    (yielded : List SuiteDefReq) (t : MNode) (n : String)
    (h : oracle.suiteExists yielded n = true) :
    (suiteDefOne oracle yielded t).1.countP (isSuiteNamed n) = 0 := by
  unfold suiteDefOne
  repeat' split
  all_goals try simp [List.countP_append, List.countP_cons, isSuiteNamed, isDefnNamed]
  all_goals repeat' split
  all_goals try simp [List.countP_append, List.countP_cons, isSuiteNamed, isDefnNamed]
  all_goals intro h1
  all_goals try intro h2
  all_goals subst_vars
  all_goals simp_all

theorem suiteDefOne_defn_none (oracle : SuiteOracle)
    (href : reflectiveOracle oracle) (yielded : List SuiteDefReq) (t : MNode)
    (n : String) (h : ∃ r ∈ yielded, isDefnNamed n r) :
    (suiteDefOne oracle yielded t).1.countP (isDefnNamed n) = 0 := by
  unfold suiteDefOne
  repeat' split
  all_goals try simp [List.countP_append, List.countP_cons, isSuiteNamed, isDefnNamed]
  all_goals repeat' split
  all_goals try simp [List.countP_append, List.countP_cons, isSuiteNamed, isDefnNamed]
  all_goals intro hc
  all_goals subst hc
  all_goals rcases h with ⟨r, hr, hpr⟩
  all_goals rename_i hfalse
  all_goals rw [href.2 _ _ ⟨r, List.mem_append_left _ hr, hpr⟩] at hfalse
  all_goals simp at hfalse

theorem suiteDefGo_suite_count (oracle : SuiteOracle)
    (href : reflectiveOracle oracle) (n : String) :
    ∀ (tests : List (String × MNode)) (acc : List SuiteDefReq),
      acc.countP (isSuiteNamed n) ≤ 1 →
      (suiteDefGo oracle acc tests).countP (isSuiteNamed n) ≤ 1 := by
  intro tests
  induction tests with
  | nil => intro acc h; exact h
  | cons e rest ih =>
    intro acc hacc
    unfold suiteDefGo
    rcases hso : suiteDefOne oracle acc e.2 with ⟨y, b⟩
    have hkey : (acc ++ y).countP (isSuiteNamed n) ≤ 1 := by
      rw [List.countP_append]
      by_cases hz : acc.countP (isSuiteNamed n) = 0
      · have hy := suiteDefOne_suite_le oracle acc e.2 n
        rw [hso] at hy
        simp at hy
        omega
      · have hpos : 0 < acc.countP (isSuiteNamed n) := Nat.pos_of_ne_zero hz
        have hex := List.countP_pos_iff.mp hpos
        have hT := href.1 acc n hex
        have hy0 : y.countP (isSuiteNamed n) = 0 := by
          have h0 := suiteDefOne_suite_none oracle acc e.2 n hT
          rw [hso] at h0
          exact h0
        omega
    cases b
    · exact ih (acc ++ y) hkey
    · exact hkey

theorem suiteDefGo_defn_count (oracle : SuiteOracle)
    (href : reflectiveOracle oracle) (n : String) :
    ∀ (tests : List (String × MNode)) (acc : List SuiteDefReq),
      acc.countP (isDefnNamed n) ≤ 1 →
      (suiteDefGo oracle acc tests).countP (isDefnNamed n) ≤ 1 := by
  intro tests
  induction tests with
  | nil => intro acc h; exact h
  | cons e rest ih =>
    intro acc hacc
    unfold suiteDefGo
    rcases hso : suiteDefOne oracle acc e.2 with ⟨y, b⟩
    have hkey : (acc ++ y).countP (isDefnNamed n) ≤ 1 := by
      rw [List.countP_append]
      by_cases hz : acc.countP (isDefnNamed n) = 0
      · have hy := suiteDefOne_defn_le oracle acc e.2 n
        rw [hso] at hy
        simp at hy
        omega
      · have hpos : 0 < acc.countP (isDefnNamed n) := Nat.pos_of_ne_zero hz
        have hex := List.countP_pos_iff.mp hpos
        have hy0 : y.countP (isDefnNamed n) = 0 := by
          have h0 := suiteDefOne_defn_none oracle href acc e.2 n hex
          rw [hso] at h0
          exact h0
        omega
    cases b
    · exact ih (acc ++ y) hkey
    · exact hkey

/-- C3 counterexample: with two test nodes of which the first raises (no
`meta` key), `create_dbt_tests_suite_definition` yields nothing at all,
although the second node alone yields a suite and a definition — the
single `try` around the whole loop aborts the remaining items instead of
isolating the failure per item. -/
theorem c3_counterexample :
    create_dbt_tests_suite_definition oracleNone
      [("t1", testNodeNoMeta), ("t2", testNodeGood)] = [] ∧
    create_dbt_tests_suite_definition oracleNone [("t2", testNodeGood)] =
      [.suite "DBT_TEST_SUITE" "", .defn "D" "a dbt test" "TABLE" "p"] :=
  ⟨rfl, rfl⟩

/-- C3 (amended): test-case emission and result attachment isolate
failures per item — the yields of a batch are the concatenation of the
yields of its parts, so one item's exception cannot affect the others —
while in suite/definition emission an exception is caught and logged but
ends the whole operation: when the first node raises, the run stops with
only that node's partial yields. -/
theorem c3_theorem :
    (∀ (env : Env) (manifest l₁ l₂ : List (String × MNode)),
        create_dbt_test_cases env manifest (l₁ ++ l₂) =
          create_dbt_test_cases env manifest l₁ ++
            create_dbt_test_cases env manifest l₂)
    ∧ (∀ (env : Env) (manifest tests : List (String × MNode))
        (r₁ r₂ : List RunResult),
        updateRun env manifest tests (r₁ ++ r₂) =
          updateRun env manifest tests r₁ ++ updateRun env manifest tests r₂)
    ∧ (∀ (oracle : SuiteOracle) (k : String) (t : MNode)
        (rest : List (String × MNode)),
        (suiteDefOne oracle [] t).2 = true →
        create_dbt_tests_suite_definition oracle ((k, t) :: rest) =
          (suiteDefOne oracle [] t).1) := by
  refine ⟨?_, ?_, ?_⟩
  · intro env manifest l₁ l₂
    unfold create_dbt_test_cases
    exact List.flatMap_append l₁ l₂ _
  · intro env manifest tests r₁ r₂
    unfold updateRun
    exact List.flatMap_append r₁ r₂ _
  · intro oracle k t rest h
    unfold create_dbt_tests_suite_definition suiteDefGo
    rcases hso : suiteDefOne oracle [] t with ⟨y, b⟩
    rw [hso] at h
    simp at h
    subst h
    simp [hso]

/-- C3 witness: the abort behaviour instantiated at the concrete failing
run of the counterexample. -/
theorem c3_witness :
    (suiteDefOne oracleNone [] testNodeNoMeta).2 = true ∧
    create_dbt_tests_suite_definition oracleNone
      [("t1", testNodeNoMeta), ("t2", testNodeGood)] =
      (suiteDefOne oracleNone [] testNodeNoMeta).1 :=
  ⟨rfl, c3_theorem.2.2 oracleNone "t1" testNodeNoMeta [("t2", testNodeGood)] rfl⟩

/-- C4 counterexample: with an external catalog that does not reflect
the requests yielded so far (here: lookups always miss), two test nodes
sharing the default suite name and the definition name `D` produce two
create-suite and two create-definition requests in a single run. -/
theorem c4_counterexample :
    (create_dbt_tests_suite_definition oracleNone
        [("t1", testNodeGood), ("t2", testNodeGood)]).countP
      (isSuiteNamed "DBT_TEST_SUITE") = 2 ∧
    (create_dbt_tests_suite_definition oracleNone
        [("t1", testNodeGood), ("t2", testNodeGood)]).countP
      (isDefnNamed "D") = 2 :=
  ⟨rfl, rfl⟩

/-- C4 (amended): when the catalog lookups reflect the requests already
yielded in this run (each create request is persisted before the next
existence check), at most one create-suite and at most one
create-definition request per distinct name is yielded across an entire
run of `create_dbt_tests_suite_definition`. -/
theorem c4_theorem (oracle : SuiteOracle) (href : reflectiveOracle oracle)
    (tests : List (String × MNode)) (n : String) :
    (create_dbt_tests_suite_definition oracle tests).countP
      (isSuiteNamed n) ≤ 1 ∧
    (create_dbt_tests_suite_definition oracle tests).countP
      (isDefnNamed n) ≤ 1 :=
  ⟨suiteDefGo_suite_count oracle href n tests [] (by simp),
   suiteDefGo_defn_count oracle href n tests [] (by simp)⟩

theorem oracleRefl_reflective : reflectiveOracle oracleRefl := by
  constructor <;> intro prev n hex <;> rcases hex with ⟨r, hr, hpr⟩
  · refine List.any_eq_true.mpr ⟨r, hr, ?_⟩
    cases r <;> simp_all [isSuiteNamed]
  · refine List.any_eq_true.mpr ⟨r, hr, ?_⟩
    cases r <;> simp_all [isDefnNamed]

/-- C4 witness: with a reflective oracle the duplicate-prone run of the
counterexample stays deduplicated. -/
theorem c4_witness :
    (create_dbt_tests_suite_definition oracleRefl
        [("t1", testNodeGood), ("t2", testNodeGood)]).countP
      (isSuiteNamed "DBT_TEST_SUITE") ≤ 1 ∧
    (create_dbt_tests_suite_definition oracleRefl
        [("t1", testNodeGood), ("t2", testNodeGood)]).countP
      (isDefnNamed "D") ≤ 1 :=
  ⟨(c4_theorem oracleRefl oracleRefl_reflective
      [("t1", testNodeGood), ("t2", testNodeGood)] "DBT_TEST_SUITE").1,
   (c4_theorem oracleRefl oracleRefl_reflective
      [("t1", testNodeGood), ("t2", testNodeGood)] "D").2⟩

/-! ## Claims C8 and C9 -/

theorem resultSubsGo_snd (env : Env) (manifest : List (String × MNode))
    (tn : MNode) (res : TCResult) :
    ∀ (nodes : List String) (sub : String × TCResult),
      sub ∈ resultSubsGo env manifest tn res nodes → sub.2 = res := by
  intro nodes
  induction nodes with
  | nil => intro sub h; simp [resultSubsGo] at h
  | cons node rest ih =>
    intro sub h
    unfold resultSubsGo at h
    rcases hg : pyGet manifest node with _ | model
    · rw [hg] at h
      simp at h
    · rw [hg] at h
      rcases hn : tn.name with _ | tname
      · rw [hn] at h
        simp at h
      · rw [hn] at h
        rcases List.mem_cons.mp h with heq | hmem
        · rw [heq]
        · exact ih sub hmem

theorem updateOne_snd (env : Env) (manifest dbt_tests : List (String × MNode))
    (rr : RunResult) (res : TCResult) (hres : recordResult rr = .ok res) :
    ∀ sub ∈ updateOne env manifest dbt_tests rr, sub.2 = res := by
  intro sub h
  rcases huid : rr.unique_id with _ | uid
  · simp [updateOne, hres, huid] at h
  · rcases hget : pyGet dbt_tests uid with _ | tn
    · simp [updateOne, hres, huid, hget] at h
    · rcases hdep : tn.depends_on_nodes with _ | nodes
      · simp [updateOne, hres, huid, hget, hdep] at h
      · have h' : sub ∈ resultSubsGo env manifest tn res nodes := by
          simpa [updateOne, hres, huid, hget, hdep] using h
        exact resultSubsGo_snd env manifest tn res nodes sub h' 

/-- C8: for a run-result record whose `timing` list is present, the
constructed TestCaseResult's timestamp is the "execute" entry's
completion time converted to epoch milliseconds; when no (truthy)
"execute" completion time exists the result is still produced, with no
timestamp; and every submission made for the record attaches exactly
that result. -/
theorem c8_theorem (env : Env) (manifest dbt_tests : List (String × MNode))
    (rr : RunResult) (ts : List TimingEntry) (h : rr.timing = some ts) :
    (∀ s dt, executeCompletedAt ts = some s → s ≠ "" →
      pyStrptime s = some dt →
      ∃ r, recordResult rr = .ok r ∧
        r.timestamp = some (unix_time_millis dt) ∧
        ∀ sub ∈ updateOne env manifest dbt_tests rr, sub.2 = r)
    ∧ (optTruthy (executeCompletedAt ts) = false →
      ∃ r, recordResult rr = .ok r ∧ r.timestamp = none ∧
        ∀ sub ∈ updateOne env manifest dbt_tests rr, sub.2 = r) := by
  constructor
  · intro s dt hs hne hparse
    have hrec : recordResult rr =
        .ok ⟨some (unix_time_millis dt), (mapStatus rr.status).1, rr.unique_id,
          toString (mapStatus rr.status).2⟩ := by
      unfold recordResult
      rw [h]
      simp [hs, optTruthy, hne, hparse]
    exact ⟨_, hrec, rfl, updateOne_snd env manifest dbt_tests rr _ hrec⟩
  · intro hf
    have hrec : recordResult rr =
        .ok ⟨none, (mapStatus rr.status).1, rr.unique_id,
          toString (mapStatus rr.status).2⟩ := by
      unfold recordResult
      rw [h]
      simp [hf]
    exact ⟨_, hrec, rfl, updateOne_snd env manifest dbt_tests rr _ hrec⟩

/-- C8 witness: the concrete record `rrExec` is converted with the
execute timestamp, and the result attached to its submissions is that
converted result. -/
theorem c8_witness :
    rrExec.timing = some timingExec ∧
    executeCompletedAt timingExec = some "2023-01-01T00:00:00.000000Z" ∧
    pyStrptime "2023-01-01T00:00:00.000000Z" = some dt2023 ∧
    (∃ r, recordResult rrExec = .ok r ∧
      r.timestamp = some (unix_time_millis dt2023) ∧
      ∀ sub ∈ updateOne env0 manifest1 [("test.a", testNodeGood)] rrExec,
        sub.2 = r) :=
  ⟨rfl, rfl, by decide,
   (c8_theorem env0 manifest1 [("test.a", testNodeGood)] rrExec timingExec
     rfl).1 "2023-01-01T00:00:00.000000Z" dt2023 rfl (by decide) (by decide)⟩

/-- C9: the timestamp conversion applied to run-result completion times
(`strptime` with format `%Y-%m-%dT%H:%M:%S.%fZ` followed by
`unix_time_millis`) maps `2023-01-01T00:00:00.000000Z` to the
epoch-millisecond integer 1672531200000 — both in isolation and through
the result construction of `update_dbt_test_result`. -/
theorem c9_theorem :
    (pyStrptime "2023-01-01T00:00:00.000000Z").map unix_time_millis =
      some 1672531200000 ∧
    recordResult rrExec =
      .ok ⟨some 1672531200000, "Success", some "test.a", "1"⟩ := by
  have hp : pyStrptime "2023-01-01T00:00:00.000000Z" = some dt2023 := by decide
  have hm : unix_time_millis dt2023 = 1672531200000 := by decide
  constructor
  · rw [hp]
    simp [hm]
  · unfold recordResult
    simp [rrExec, timingExec, executeCompletedAt, optTruthy, hp, hm, mapStatus]
    rfl


/-- Fidelity of the double model at a microsecond-bearing input: the
completion time 2004-02-23T07:29:55.222000Z converts to 1077521395221
milliseconds, as the source does — the double nearest 1077521395.222
lies just below it, so the final truncation lands one millisecond under
the exact rational value 1077521395222. -/
theorem unix_time_millis_2004 :
    (pyStrptime "2004-02-23T07:29:55.222000Z").map unix_time_millis =
      some 1077521395221 := by decide

end Dbt
